import Mathlib

/-!
Shallow embedding of the Ferod project-scaffolding CLI
(`createFerodApp` and its helpers `getAnswers`, `getUserPackageManager`,
`scaffoldProject`, `createPackageJson`).

File-system reads are modelled by oracle functions (template name to
manifest, template name to file list); file-system writes and process
spawns are modelled as an explicit effect trace.  JavaScript `Map`s are
modelled as insertion-ordered association lists with JS `Map.set`
semantics (update in place when the key exists, append otherwise).
-/

namespace Ferod

/-- The fixed enumeration of database choices offered by the CLI
(the `databases` constant of the source). -/
inductive DatabaseType where
  | mySQL
  | mongoDB
  | sqlite
  | postgreSQL
  | sqlServer
  | cockroachDB
  deriving DecidableEq, Repr

/-- The exact display string of each database choice, as written in the
`databases` array of the source. -/
def DatabaseType.toStr : DatabaseType → String
  | .mySQL => "MySQL"
  | .mongoDB => "MongoDB"
  | .sqlite => "SQLite"
  | .postgreSQL => "PostgreSQL"
  | .sqlServer => "SQLServer"
  | .cockroachDB => "CockroachDB"

/-- The `Answers` record of the source: the resolved user choices. -/
structure Answers where
  name : String
  gitRepo : Bool
  install : Bool
  prisma : Bool
  databaseType : Option DatabaseType
  databaseUri : Option String
  typescript : Bool
  helpCommand : Bool
  dashboard : Bool
  eslintAndPrettier : Bool
  deriving DecidableEq, Repr

/-- The `PackageManager` union type of the source. -/
inductive PackageManager where
  | npm
  | yarn
  | pnpm
  deriving DecidableEq, Repr

/-- String rendering of a package manager identifier. -/
def PackageManager.toStr : PackageManager → String
  | .npm => "npm"
  | .yarn => "yarn"
  | .pnpm => "pnpm"

/-- The CLI flags of `CreateAppOptions`: `yes`, and the optional
`noGit` / `noInstall` flags (`none` models the JS value `undefined`). -/
structure Flags where
  yes : Bool
  noGit : Option Bool
  noInstall : Option Bool
  deriving DecidableEq, Repr

/-- The `CreateAppOptions` record passed to the command: an optional
externally supplied project name plus the flags. -/
structure CreateAppOptions where
  name : Option String
  flags : Flags
  deriving DecidableEq, Repr

/-- `getAnswers` of the source.  The interactive branch delegates to the
external prompt library; its outcome is the oracle `prompted`.  The
non-interactive branch (`flags.yes`) is fully embedded. -/
def getAnswers (options : CreateAppOptions) (prompted : Answers) : Answers :=
  if options.flags.yes then
    { name := options.name.getD "my-app"
      gitRepo := options.flags.noGit.isNone
      install := options.flags.noInstall.isNone
      prisma := true
      databaseType := some .mongoDB
      databaseUri := some ("mongodb://localhost:27017/" ++ options.name.getD "my-app")
      typescript := true
      helpCommand := true
      dashboard := true
      eslintAndPrettier := true }
  else
    prompted

/-- JS `String.prototype.toLowerCase` (ASCII-relevant part), as a map
over the underlying character list. -/
def strToLower (s : String) : String :=
  String.mk (s.data.map Char.toLower)

/-- Is the first character list a prefix of the second? -/
def listIsPrefixOf : List Char → List Char → Bool
  | [], _ => true
  | _ :: _, [] => false
  | a :: as, b :: bs => a == b && listIsPrefixOf as bs

/-- Does the second character list occur contiguously inside the first? -/
def listHasSub (needle : List Char) : List Char → Bool
  | [] => listIsPrefixOf needle []
  | h :: t => listIsPrefixOf needle (h :: t) || listHasSub needle t

/-- JS `String.prototype.includes`: substring containment, on the
underlying character lists. -/
def strIncludes (s sub : String) : Bool :=
  listHasSub sub.data s.data

/-- `getUserPackageManager` of the source: the argument models the
`npm_config_user_agent` environment variable (`none` = unset). -/
def getUserPackageManager (userAgent : Option String) : PackageManager :=
  match userAgent with
  | none => .npm
  | some ua =>
    if strIncludes ua "yarn" then .yarn
    else if strIncludes ua "pnpm" then .pnpm
    else .npm

/-! ## Manifests and the manifest merge (`createPackageJson`) -/

/-- A string-to-string mapping field of a manifest (JS `Map` contents and
`scripts` / `dependencies` / `devDependencies` objects), modelled as an
insertion-ordered association list. -/
abbrev StrMap := List (String × String)

/-- A template's `package.json`, modelled as a JSON object: the four
fields the scaffolder manipulates, plus the remaining fields carried
opaquely as key/value pairs. -/
structure Manifest where
  name : Option String
  scripts : Option StrMap
  dependencies : Option StrMap
  devDependencies : Option StrMap
  other : List (String × String)
  deriving DecidableEq, Repr

/-- JS `Map.prototype.set`: if the key is present, update its value in
place (keeping its position); otherwise append the new entry. -/
def mapSet (m : StrMap) (k v : String) : StrMap :=
  if m.any (fun p => p.1 == k) then
    m.map (fun p => if p.1 == k then (k, v) else p)
  else
    m ++ [(k, v)]

/-- Write every entry of `es` into the map `m` in order, by `mapSet`
(the inner `for ... of entries` loops of `createPackageJson`). -/
def setAll (m : StrMap) (es : StrMap) : StrMap :=
  es.foldl (fun acc p => mapSet acc p.1 p.2) m

/-- Association-list lookup (JS `Map.prototype.get` / first-key lookup). -/
def getKey (m : StrMap) (k : String) : Option String :=
  match m with
  | [] => none
  | p :: rest => if p.1 == k then some p.2 else getKey rest k

/-- The keys of a mapping, in order. -/
def keysOf (m : StrMap) : List String :=
  m.map Prod.fst

/-- The accumulation loop of `createPackageJson`: fold over the templates
in order, reading each template's manifest through the oracle `read` and
writing its `dependencies`, `devDependencies` and `scripts` entries into
the three maps (a missing field contributes no entries, `?? {}`). -/
def mergeManifests (read : String → Manifest) (templates : List String) :
    StrMap × StrMap × StrMap :=
  templates.foldl
    (fun acc t =>
      let packageJson := read t
      (setAll acc.1 (packageJson.dependencies.getD []),
       setAll acc.2.1 (packageJson.devDependencies.getD []),
       setAll acc.2.2 (packageJson.scripts.getD [])))
    ([], [], [])

/-- `createPackageJson` of the source: merge the three mapping fields
across all templates, then spread the first template's manifest and
overwrite `name`, `scripts`, `dependencies` and `devDependencies`.
Returns `none` when the template list is empty (the source would throw
reading `directories[0]`). -/
def createPackageJson (read : String → Manifest) (projectName : String)
    (templates : List String) : Option Manifest :=
  let merged := mergeManifests read templates
  match templates.head? with
  | none => none
  | some t0 =>
    let basePackageJson := read t0
    some { basePackageJson with
            name := some projectName
            scripts := some merged.2.2
            dependencies := some merged.1
            devDependencies := some merged.2.1 }

/-! ## The scaffolder (`scaffoldProject`) -/

/-- `ScaffoldOptions` of the source: the answers plus the detected
package manager and the resolved target directory. -/
structure ScaffoldOptions extends Answers where
  packageManager : PackageManager
  projectDirectory : String
  deriving DecidableEq, Repr

/-- The observable pre-state of the target directory: absent, present
and empty, or present with at least one entry. -/
inductive DirState where
  | absent
  | empty
  | nonempty
  deriving DecidableEq, Repr

/-- One observable side effect of `scaffoldProject`, in program order.
`copyTemplate t` is `fse.copySync(<templates>/t, projectDirectory)`;
`copyFile src dst` is `fse.copyFileSync` with `src` relative to the
templates directory and `dst` relative to the project directory;
`execCmd` is a `child_process.exec` spawn. -/
inductive Effect where
  | log (msg : String)
  | mkdir (path : String)
  | execCmd (cmd : String)
  | copyTemplate (template : String)
  | copyFile (src : String) (dst : String)
  | writeJSON (path : String) (content : Manifest)
  deriving DecidableEq, Repr

/-- JS `Set.prototype.add` on an insertion-ordered duplicate-free list. -/
def setAdd (s : List String) (x : String) : List String :=
  if x ∈ s then s else s ++ [x]

/-- The Template Set built at the top of `scaffoldProject`: `base` and
the language variant, then conditionally `prisma` and
`eslint-prettier`, with JS `Set` (insertion-ordered, duplicate-free)
semantics. -/
def templateSet (options : ScaffoldOptions) : List String :=
  let templates := ["base", if options.typescript then "base-ts" else "base-js"]
  let templates := if options.prisma then setAdd templates "prisma" else templates
  if options.eslintAndPrettier then setAdd templates "eslint-prettier" else templates

/-- `scaffoldProject` of the source as an effect trace.  `read` is the
oracle giving each template's `package.json`; `dir` is the pre-state of
the target directory.  The occupied-directory branch logs and returns
before any write or spawn. -/
def scaffoldProject (read : String → Manifest) (options : ScaffoldOptions)
    (dir : DirState) : List Effect :=
  let templates := templateSet options
  Effect.log ("Using " ++ options.packageManager.toStr ++ " to scaffold the project") ::
  match dir with
  | .nonempty =>
    [Effect.log ("The directory " ++ options.projectDirectory ++
      " is not empty. Please try again.")]
  | d =>
    (if d = .absent then [Effect.mkdir options.projectDirectory] else []) ++
    (if options.gitRepo then
      [Effect.execCmd ("cd \"" ++ options.projectDirectory ++ "\" && git init"),
       Effect.copyTemplate "git"]
     else []) ++
    [Effect.copyTemplate "base",
     Effect.copyTemplate (if options.typescript then "base-ts" else "base-js")] ++
    (if options.prisma then
      let databaseType := (options.databaseType.map (fun t => strToLower t.toStr)).getD "mongodb"
      [Effect.mkdir (options.projectDirectory ++ "/prisma"),
       Effect.copyFile ("prisma/" ++ databaseType ++ ".prisma") "prisma/schema.prisma"]
     else []) ++
    (if options.eslintAndPrettier then [Effect.copyTemplate "eslint-prettier"] else []) ++
    (match createPackageJson read options.name templates with
     | some packageJson =>
       [Effect.writeJSON (options.projectDirectory ++ "/package.json") packageJson]
     | none => []) ++
    (if options.install then
      [Effect.execCmd ("cd \"" ++ options.projectDirectory ++ "\" && " ++
        options.packageManager.toStr ++ " install --ignore-workspace")]
     else [])

/-- Does this effect write to the file system (create or modify a file
or directory under the target)? -/
def Effect.isFsWrite : Effect → Bool
  | .mkdir _ => true
  | .copyTemplate _ => true
  | .copyFile _ _ => true
  | .writeJSON _ _ => true
  | _ => false

/-- Does this effect spawn an external process? -/
def Effect.isExec : Effect → Bool
  | .execCmd _ => true
  | _ => false

/-- Is this effect a template-directory copy or the schema-file copy? -/
def Effect.isCopy : Effect → Bool
  | .copyTemplate _ => true
  | .copyFile _ _ => true
  | _ => false

/-- Is this effect the manifest write? -/
def Effect.isWriteJSON : Effect → Bool
  | .writeJSON _ _ => true
  | _ => false

/-- Is this effect the schema-file copy? -/
def Effect.isCopyFile : Effect → Bool
  | .copyFile _ _ => true
  | _ => false

/-- The name copied by a `copyTemplate` effect, if any. -/
def Effect.copiedTemplate : Effect → Option String
  | .copyTemplate t => some t
  | _ => none

/-! ## Interpretation of directory copies (overwrite-on-collision),
and spec-side comparators -/

/-- First option that is `some`, scanning left to right. -/
def oor (a b : Option String) : Option String :=
  match a with
  | some v => some v
  | none => b

/-- `f` applied to the LAST element of the list on which it yields
`some`, if any. -/
def lastSome? (f : α → Option String) : List α → Option String
  | [] => none
  | a :: as => oor (lastSome? f as) (f a)

/-- `fse.copySync(<templates>/t, dst)` with its default
`overwrite: true`: every file of template `t` (given by the oracle `tf`
as relative-path/content pairs) replaces the destination's file at the
same path; other files are untouched. -/
def applyCopy (tf : String → List (String × String)) (fs : String → Option String)
    (t : String) : String → Option String :=
  fun p =>
    match getKey (tf t) p with
    | some c => some c
    | none => fs p

/-- Run a sequence of template-directory copies, in order, over a
file-system state (path to content). -/
def runCopies (tf : String → List (String × String)) (names : List String)
    (fs : String → Option String) : String → Option String :=
  names.foldl (applyCopy tf) fs

/-- Spec-side comparator for the merge: the value of the LAST entry with
key `k` in the entry list, if any ("last write per key wins"). -/
def specLastWins (es : StrMap) (k : String) : Option String :=
  lastSome? (fun p => if p.1 == k then some p.2 else none) es

/-- Spec-side: the schema-file stem the spec says is selected — the
lower-cased chosen database type, or the fixed default type's
(MongoDB's) stem when no type was chosen. -/
def specSchemaStem : Option DatabaseType → String
  | some t => strToLower t.toStr
  | none => strToLower DatabaseType.mongoDB.toStr

/-- Concrete two-template oracle for the merge example: template `A`
has scripts {build: x}; template `B` has scripts {build: y, test: z}. -/
def readMergeExample : String → Manifest :=
  fun t =>
    if t == "A" then
      { name := some "a", scripts := some [("build", "x")],
        dependencies := none, devDependencies := none, other := [] }
    else if t == "B" then
      { name := some "b", scripts := some [("build", "y"), ("test", "z")],
        dependencies := none, devDependencies := none, other := [] }
    else
      { name := none, scripts := none, dependencies := none,
        devDependencies := none, other := [] }

/-- A concrete answers record standing for the outcome of the
interactive prompt where one is needed but unused. -/
def promptedUnused : Answers :=
  { name := "prompted", gitRepo := false, install := false, prisma := false,
    databaseType := none, databaseUri := none, typescript := false,
    helpCommand := false, dashboard := false, eslintAndPrettier := false }

/-- The manifest `scaffoldProject` writes: the base template's manifest
with the project name and the three merged mappings over the Template
Set (equal to `createPackageJson` on the Template Set). -/
def mergedOf (read : String → Manifest) (o : ScaffoldOptions) : Manifest :=
  { read "base" with
      name := some o.name
      scripts := some (mergeManifests read (templateSet o)).2.2
      dependencies := some (mergeManifests read (templateSet o)).1
      devDependencies := some (mergeManifests read (templateSet o)).2.1 }

/-- The shell command spawned for version-control initialization. -/
def gitInitCmd (o : ScaffoldOptions) : String :=
  "cd \"" ++ o.projectDirectory ++ "\" && git init"

/-- The shell command spawned for dependency installation. -/
def installCmd (o : ScaffoldOptions) : String :=
  "cd \"" ++ o.projectDirectory ++ "\" && " ++ o.packageManager.toStr ++
    " install --ignore-workspace"

/-- A concrete options record used to instantiate scaffolding claims:
every feature requested, npm, target directory "proj". -/
def sampleOptions : ScaffoldOptions :=
  { name := "demo", gitRepo := true, install := true, prisma := true,
    databaseType := some .postgreSQL, databaseUri := some "u", typescript := true,
    helpCommand := true, dashboard := true, eslintAndPrettier := true,
    packageManager := .npm, projectDirectory := "proj" }

/-- A concrete manifest oracle for witnesses: every template has an
empty manifest except a `version` carried as an opaque field of base. -/
def sampleRead : String → Manifest :=
  fun t =>
    if t == "base" then
      { name := some "template-base", scripts := some [("dev", "tsx .")],
        dependencies := some [("ferod", "1.0.0")], devDependencies := none,
        other := [("version", "0.1.0")] }
    else
      { name := none, scripts := none, dependencies := none,
        devDependencies := none, other := [] }

/-! ## Lemmas about the map model -/

theorem oor_assoc (a b c : Option String) : oor (oor a b) c = oor a (oor b c) := by
  cases a <;> rfl

theorem oor_none_right (a : Option String) : oor a none = a := by
  cases a <;> rfl

theorem getKey_cons (p : String × String) (rest : StrMap) (k : String) :
    getKey (p :: rest) k = if p.1 == k then some p.2 else getKey rest k := rfl

theorem getKey_append (m l : StrMap) (k : String) :
    getKey (m ++ l) k = oor (getKey m k) (getKey l k) := by
  induction m with
  | nil => rfl
  | cons p rest ih =>
    rw [List.cons_append, getKey_cons, getKey_cons]
    cases hb : p.1 == k
    · rw [if_neg (by simp [hb]), if_neg (by simp [hb]), ih]
    · rw [if_pos (by simp [hb]), if_pos (by simp [hb])]
      rfl

theorem getKey_eq_none_of_any_false (m : StrMap) (k : String)
    (h : m.any (fun p => p.1 == k) = false) : getKey m k = none := by
  induction m with
  | nil => rfl
  | cons p rest ih =>
    rw [List.any_cons] at h
    have h1 : (p.1 == k) = false := by
      cases hb : p.1 == k
      · rfl
      · rw [hb] at h; simp at h
    have h2 : rest.any (fun p => p.1 == k) = false := by
      cases hb : rest.any (fun p => p.1 == k)
      · rfl
      · rw [hb] at h; simp at h
    rw [getKey_cons, if_neg (by simp [h1]), ih h2]

theorem getKey_map_overwrite (m : StrMap) (k v : String) :
    getKey (m.map (fun p => if p.1 == k then (k, v) else p)) k =
      if m.any (fun p => p.1 == k) then some v else none := by
  induction m with
  | nil => rfl
  | cons p rest ih =>
    rw [List.map_cons, List.any_cons]
    cases hb : p.1 == k
    · rw [if_neg (by simp [hb]), getKey_cons, if_neg (by simp [hb]), ih,
        Bool.false_or]
    · rw [if_pos (by simp [hb]), getKey_cons, if_pos (by simp), Bool.true_or,
        if_pos rfl]

theorem getKey_map_overwrite_ne (m : StrMap) (k v k' : String)
    (hne : (k == k') = false) :
    getKey (m.map (fun p => if p.1 == k then (k, v) else p)) k' = getKey m k' := by
  induction m with
  | nil => rfl
  | cons p rest ih =>
    rw [List.map_cons]
    cases hb : p.1 == k
    · rw [if_neg (by simp [hb]), getKey_cons, getKey_cons]
      cases hb' : p.1 == k'
      · rw [if_neg (by simp [hb']), if_neg (by simp [hb']), ih]
      · rw [if_pos (by simp [hb']), if_pos (by simp [hb'])]
    · rw [if_pos (by simp [hb]), getKey_cons, getKey_cons, if_neg (by simp [hne])]
      have hpk' : (p.1 == k') = false := by
        have h1 : p.1 = k := by simpa using hb
        rw [h1]
        exact hne
      rw [if_neg (by simp [hpk']), ih]

theorem getKey_mapSet_self (m : StrMap) (k v : String) :
    getKey (mapSet m k v) k = some v := by
  unfold mapSet
  cases hb : m.any (fun p => p.1 == k)
  · rw [if_neg (by simp [hb]), getKey_append, getKey_eq_none_of_any_false m k hb,
      getKey_cons, if_pos (by simp)]
    rfl
  · rw [if_pos (by simp [hb]), getKey_map_overwrite, hb, if_pos rfl]

theorem getKey_mapSet_ne (m : StrMap) (k v k' : String) (hne : k ≠ k') :
    getKey (mapSet m k v) k' = getKey m k' := by
  have hne' : (k == k') = false := by simpa using hne
  unfold mapSet
  cases hb : m.any (fun p => p.1 == k)
  · rw [if_neg (by simp [hb]), getKey_append, getKey_cons, if_neg (by simp [hne'])]
    rw [show getKey ([] : StrMap) k' = none from rfl, oor_none_right]
  · rw [if_pos (by simp [hb]), getKey_map_overwrite_ne m k v k' hne']

theorem getKey_setAll (es m : StrMap) (k : String) :
    getKey (setAll m es) k = oor (specLastWins es k) (getKey m k) := by
  induction es generalizing m with
  | nil => rfl
  | cons e rest ih =>
    have hstep : setAll m (e :: rest) = setAll (mapSet m e.1 e.2) rest := rfl
    have hspec : specLastWins (e :: rest) k =
        oor (specLastWins rest k) (if e.1 == k then some e.2 else none) := rfl
    rw [hstep, ih, hspec, oor_assoc]
    congr 1
    by_cases h : e.1 = k
    · subst h
      simp [getKey_mapSet_self, oor]
    · rw [getKey_mapSet_ne m e.1 e.2 k h]
      simp [(by simpa using h : (e.1 == k) = false), oor]

theorem keysOf_mapSet_nodup (m : StrMap) (k v : String)
    (h : (keysOf m).Nodup) : (keysOf (mapSet m k v)).Nodup := by
  unfold mapSet
  cases hmem : m.any (fun p => p.1 == k)
  · rw [if_neg (by simp [hmem])]
    have hk : k ∉ keysOf m := by
      intro hmem'
      obtain ⟨p, hp, hpk⟩ := List.mem_map.mp hmem'
      have hany : m.any (fun p => p.1 == k) = true :=
        List.any_eq_true.mpr ⟨p, hp, by simp [hpk]⟩
      rw [hmem] at hany
      exact Bool.false_ne_true hany
    simp only [keysOf] at h hk ⊢
    simp only [List.map_append, List.map_cons, List.map_nil]
    simp [List.nodup_append, h, hk]
  · rw [if_pos (by simp [hmem])]
    have heq : keysOf (m.map (fun p => if p.1 == k then (k, v) else p)) = keysOf m := by
      simp only [keysOf]
      rw [List.map_map]
      refine List.map_congr_left ?_
      intro p _
      cases hb : p.1 == k
      · simp [Function.comp, hb]
      · have hpk : p.1 = k := by simpa using hb
        simp [Function.comp, hb, hpk]
    rw [heq]
    exact h

theorem keysOf_setAll_nodup (es m : StrMap) (h : (keysOf m).Nodup) :
    (keysOf (setAll m es)).Nodup := by
  induction es generalizing m with
  | nil => exact h
  | cons e rest ih => exact ih (mapSet m e.1 e.2) (keysOf_mapSet_nodup m e.1 e.2 h)

theorem setAll_append (m es1 es2 : StrMap) :
    setAll m (es1 ++ es2) = setAll (setAll m es1) es2 :=
  List.foldl_append _ _ _ _

theorem foldl_setAll (f : String → StrMap) (ts : List String) (m : StrMap) :
    ts.foldl (fun acc t => setAll acc (f t)) m = setAll m ((ts.map f).flatten) := by
  induction ts generalizing m with
  | nil => rfl
  | cons t rest ih =>
    rw [List.foldl_cons, ih, List.map_cons, List.flatten_cons, setAll_append]

theorem mergeManifests_foldl (read : String → Manifest) (ts : List String)
    (a b c : StrMap) :
    ts.foldl
      (fun acc t =>
        let packageJson := read t
        (setAll acc.1 (packageJson.dependencies.getD []),
         setAll acc.2.1 (packageJson.devDependencies.getD []),
         setAll acc.2.2 (packageJson.scripts.getD [])))
      (a, b, c) =
      (ts.foldl (fun acc t => setAll acc ((read t).dependencies.getD [])) a,
       ts.foldl (fun acc t => setAll acc ((read t).devDependencies.getD [])) b,
       ts.foldl (fun acc t => setAll acc ((read t).scripts.getD [])) c) := by
  induction ts generalizing a b c with
  | nil => rfl
  | cons t rest ih =>
    simp only [List.foldl_cons]
    exact ih _ _ _

theorem mergeManifests_components (read : String → Manifest) (ts : List String) :
    mergeManifests read ts =
      (setAll [] ((ts.map (fun t => (read t).dependencies.getD [])).flatten),
       setAll [] ((ts.map (fun t => (read t).devDependencies.getD [])).flatten),
       setAll [] ((ts.map (fun t => (read t).scripts.getD [])).flatten)) := by
  unfold mergeManifests
  rw [mergeManifests_foldl, foldl_setAll, foldl_setAll, foldl_setAll]

theorem getKey_setAll_nil (es : StrMap) (k : String) :
    getKey (setAll [] es) k = specLastWins es k := by
  rw [getKey_setAll]
  exact oor_none_right _

theorem applyCopy_eq (tf : String → List (String × String))
    (fs : String → Option String) (t : String) (p : String) :
    applyCopy tf fs t p = oor (getKey (tf t) p) (fs p) := by
  cases hg : getKey (tf t) p <;> simp [applyCopy, oor, hg]

theorem runCopies_lastSome (tf : String → List (String × String))
    (names : List String) (fs : String → Option String) (p : String) :
    runCopies tf names fs p =
      oor (lastSome? (fun t => getKey (tf t) p) names) (fs p) := by
  induction names generalizing fs with
  | nil => rfl
  | cons t rest ih =>
    have h1 : runCopies tf (t :: rest) fs = runCopies tf rest (applyCopy tf fs t) := rfl
    have h2 : lastSome? (fun t => getKey (tf t) p) (t :: rest) =
        oor (lastSome? (fun t => getKey (tf t) p) rest) (getKey (tf t) p) := rfl
    rw [h1, ih, h2, oor_assoc, applyCopy_eq]

theorem specSchemaStem_eq (dbt : Option DatabaseType) :
    specSchemaStem dbt = (dbt.map (fun t => strToLower t.toStr)).getD "mongodb" := by
  cases dbt with
  | none => decide
  | some t => rfl

theorem self_ne_append_prisma (s : String) : s ≠ s ++ "/prisma" := by
  intro h
  have hl : s.length = (s ++ "/prisma").length := congrArg String.length h
  rw [String.length_append] at hl
  have h7 : ("/prisma" : String).length = 7 := rfl
  rw [h7] at hl
  omega

theorem createPackageJson_templateSet (read : String → Manifest) (o : ScaffoldOptions) :
    createPackageJson read o.name (templateSet o) = some (mergedOf read o) := by
  obtain ⟨⟨nm, git, inst, pr, dbt, dburi, tsF, hc, dsh, esl⟩, pm, pdir⟩ := o
  cases tsF <;> cases pr <;> cases esl <;> rfl

theorem scaffold_trace_eq (read : String → Manifest) (o : ScaffoldOptions)
    (dir : DirState) (hdir : dir ≠ .nonempty) :
    scaffoldProject read o dir =
      Effect.log ("Using " ++ o.packageManager.toStr ++ " to scaffold the project") ::
      ((if dir = .absent then [Effect.mkdir o.projectDirectory] else []) ++
       (if o.gitRepo then
         [Effect.execCmd (gitInitCmd o), Effect.copyTemplate "git"] else []) ++
       [Effect.copyTemplate "base",
        Effect.copyTemplate (if o.typescript then "base-ts" else "base-js")] ++
       (if o.prisma then
         [Effect.mkdir (o.projectDirectory ++ "/prisma"),
          Effect.copyFile
            ("prisma/" ++ ((o.databaseType.map (fun t => strToLower t.toStr)).getD "mongodb")
              ++ ".prisma")
            "prisma/schema.prisma"]
        else []) ++
       (if o.eslintAndPrettier then [Effect.copyTemplate "eslint-prettier"] else []) ++
       [Effect.writeJSON (o.projectDirectory ++ "/package.json") (mergedOf read o)] ++
       (if o.install then [Effect.execCmd (installCmd o)] else [])) := by
  have hcreate := createPackageJson_templateSet read o
  cases dir with
  | nonempty => exact absurd rfl hdir
  | absent =>
    simp only [scaffoldProject, gitInitCmd, installCmd]
    rw [hcreate]
  | empty =>
    simp only [scaffoldProject, gitInitCmd, installCmd]
    rw [hcreate]

theorem dropWhile_append_cons (q : α → Bool) (l1 : List α) (x : α) (l2 : List α)
    (h1 : l1.all q = true) (h2 : q x = false) :
    (l1 ++ x :: l2).dropWhile q = x :: l2 := by
  induction l1 with
  | nil => simp [List.dropWhile, h2]
  | cons a as ih =>
    rw [List.all_cons, Bool.and_eq_true] at h1
    rw [List.cons_append, List.dropWhile_cons, if_pos (by simp [h1.1])]
    exact ih h1.2

/-! ## Claim theorems -/

/-- C1: the manifest merge iterates the templates in order and
accumulates scripts, dependencies and devDependencies into key-unique
mappings where the last write per key wins: every merged map has
duplicate-free keys, looking a key up returns the value of the last
entry for that key across the templates' fields in template order, and
merging scripts {build: x} (template A) then {build: y, test: z}
(template B) gives exactly {build: y, test: z}. -/
theorem claim_merge_last_write_wins :
    (∀ (read : String → Manifest) (ts : List String),
      (keysOf (mergeManifests read ts).1).Nodup ∧
      (keysOf (mergeManifests read ts).2.1).Nodup ∧
      (keysOf (mergeManifests read ts).2.2).Nodup) ∧
    (∀ (read : String → Manifest) (ts : List String) (k : String),
      getKey (mergeManifests read ts).1 k =
        specLastWins ((ts.map (fun t => (read t).dependencies.getD [])).flatten) k ∧
      getKey (mergeManifests read ts).2.1 k =
        specLastWins ((ts.map (fun t => (read t).devDependencies.getD [])).flatten) k ∧
      getKey (mergeManifests read ts).2.2 k =
        specLastWins ((ts.map (fun t => (read t).scripts.getD [])).flatten) k) ∧
    (mergeManifests readMergeExample ["A", "B"]).2.2 =
      [("build", "y"), ("test", "z")] := by
  refine ⟨fun read ts => ?_, fun read ts k => ?_, by decide⟩
  · rw [mergeManifests_components]
    exact ⟨keysOf_setAll_nodup _ _ List.nodup_nil,
           keysOf_setAll_nodup _ _ List.nodup_nil,
           keysOf_setAll_nodup _ _ List.nodup_nil⟩
  · rw [mergeManifests_components]
    exact ⟨getKey_setAll_nil _ _, getKey_setAll_nil _ _, getKey_setAll_nil _ _⟩

/-- C3: for every answers record the Template Set contains `base`,
contains the language variant matching the TypeScript choice and not
the other one, contains `prisma` iff the database layer was requested,
contains `eslint-prettier` iff linting was requested, and has no
duplicates. -/
theorem claim_template_set (o : ScaffoldOptions) :
    "base" ∈ templateSet o ∧
    ("base-ts" ∈ templateSet o ↔ o.typescript = true) ∧
    ("base-js" ∈ templateSet o ↔ o.typescript = false) ∧
    ("prisma" ∈ templateSet o ↔ o.prisma = true) ∧
    ("eslint-prettier" ∈ templateSet o ↔ o.eslintAndPrettier = true) ∧
    (templateSet o).Nodup := by
  obtain ⟨⟨nm, git, inst, pr, dbt, dburi, tsF, hc, dsh, esl⟩, pm, pdir⟩ := o
  cases tsF <;> cases pr <;> cases esl <;> simp [templateSet, setAdd]

/-- C4: for every base-template manifest and project name the merged
manifest is the base template's manifest with `name` replaced by the
requested project name, the three mapping fields replaced by the
merged mappings, and every other field carried over unchanged. -/
theorem claim_manifest_frame (read : String → Manifest) (projectName t0 : String)
    (rest : List String) :
    ∃ m, createPackageJson read projectName (t0 :: rest) = some m ∧
      m.name = some projectName ∧
      m.other = (read t0).other ∧
      m.scripts = some (mergeManifests read (t0 :: rest)).2.2 ∧
      m.dependencies = some (mergeManifests read (t0 :: rest)).1 ∧
      m.devDependencies = some (mergeManifests read (t0 :: rest)).2.1 :=
  ⟨_, rfl, rfl, rfl, rfl, rfl, rfl⟩

/-- C7: package-manager detection is a function of the single
environment signal returning one of npm, yarn, pnpm; it returns npm
when the signal is absent and npm when the signal matches neither
"yarn" nor "pnpm". -/
theorem claim_package_manager_detection (userAgent : Option String) :
    (getUserPackageManager userAgent = .npm ∨
     getUserPackageManager userAgent = .yarn ∨
     getUserPackageManager userAgent = .pnpm) ∧
    (userAgent = none → getUserPackageManager userAgent = .npm) ∧
    (∀ ua, userAgent = some ua → strIncludes ua "yarn" = false →
      strIncludes ua "pnpm" = false → getUserPackageManager userAgent = .npm) := by
  refine ⟨?_, ?_, ?_⟩
  · cases userAgent with
    | none => exact Or.inl rfl
    | some ua =>
      have hred : getUserPackageManager (some ua) =
          if strIncludes ua "yarn" then .yarn
          else if strIncludes ua "pnpm" then .pnpm else .npm := rfl
      rw [hred]
      cases h1 : strIncludes ua "yarn"
      · cases h2 : strIncludes ua "pnpm"
        · rw [if_neg (by simp), if_neg (by simp)]
          exact Or.inl rfl
        · rw [if_neg (by simp), if_pos (by simp)]
          exact Or.inr (Or.inr rfl)
      · rw [if_pos (by simp)]
        exact Or.inr (Or.inl rfl)
  · intro h
    subst h
    rfl
  · intro ua h h1 h2
    subst h
    have hred : getUserPackageManager (some ua) =
        if strIncludes ua "yarn" then .yarn
        else if strIncludes ua "pnpm" then .pnpm else .npm := rfl
    rw [hred, h1, h2, if_neg (by simp), if_neg (by simp)]

/-- Witness for C7 at a concrete user agent string that contains
neither "yarn" nor "pnpm". -/
theorem claim_package_manager_detection_witness :
    getUserPackageManager (some "npm/9.5.0 node/v18.0.0") = .npm :=
  (claim_package_manager_detection (some "npm/9.5.0 node/v18.0.0")).2.2
    "npm/9.5.0 node/v18.0.0" rfl (by decide) (by decide)

/-- C2: scaffolding into a pre-existing non-empty directory reports a
user-visible message, performs zero file-system writes (no mkdir, no
copy, no manifest write), and returns normally. -/
theorem claim_occupied_dir_no_writes (read : String → Manifest) (o : ScaffoldOptions) :
    (scaffoldProject read o .nonempty).filter (fun e => e.isFsWrite) = [] ∧
    Effect.log ("The directory " ++ o.projectDirectory ++
      " is not empty. Please try again.") ∈ scaffoldProject read o .nonempty :=
  ⟨rfl, by simp [scaffoldProject]⟩

/-- C9: on the occupied-directory abort no external process is spawned
at all — the trace contains no exec effect, whatever the git and
install answers are. -/
theorem claim_occupied_dir_no_exec (read : String → Manifest) (o : ScaffoldOptions) :
    (scaffoldProject read o .nonempty).filter (fun e => e.isExec) = [] :=
  rfl

/-- C6 counterexample: with the non-interactive flag set together with
the skip-git flag, the returned record has `gitRepo = false`, refuting
"all boolean fields true". -/
theorem claim_yes_defaults_counterexample :
    (getAnswers { name := none, flags := { yes := true, noGit := some true, noInstall := none } }
      promptedUnused).gitRepo = false := by
  decide

/-- C6 amended: when the non-interactive flag is set the collector
returns fixed defaults — name "my-app" unless one was supplied,
prisma/typescript/helpCommand/dashboard/eslintAndPrettier all true,
gitRepo true iff the skip-git flag is absent, install true iff the
skip-install flag is absent, database type MongoDB, and the connection
URI built from the name. -/
theorem claim_yes_defaults (options : CreateAppOptions) (prompted : Answers)
    (h : options.flags.yes = true) :
    (getAnswers options prompted).name = options.name.getD "my-app" ∧
    (getAnswers options prompted).gitRepo = options.flags.noGit.isNone ∧
    (getAnswers options prompted).install = options.flags.noInstall.isNone ∧
    (getAnswers options prompted).prisma = true ∧
    (getAnswers options prompted).databaseType = some .mongoDB ∧
    (getAnswers options prompted).databaseUri =
      some ("mongodb://localhost:27017/" ++ options.name.getD "my-app") ∧
    (getAnswers options prompted).typescript = true ∧
    (getAnswers options prompted).helpCommand = true ∧
    (getAnswers options prompted).dashboard = true ∧
    (getAnswers options prompted).eslintAndPrettier = true := by
  have hy : getAnswers options prompted =
      { name := options.name.getD "my-app"
        gitRepo := options.flags.noGit.isNone
        install := options.flags.noInstall.isNone
        prisma := true
        databaseType := some .mongoDB
        databaseUri := some ("mongodb://localhost:27017/" ++ options.name.getD "my-app")
        typescript := true
        helpCommand := true
        dashboard := true
        eslintAndPrettier := true } := by
    unfold getAnswers
    rw [if_pos (by simp [h])]
  rw [hy]
  exact ⟨rfl, rfl, rfl, rfl, rfl, rfl, rfl, rfl, rfl, rfl⟩

/-- Witness for C6 (amended) at a concrete options record with the
non-interactive flag set and no other flags. -/
theorem claim_yes_defaults_witness :
    (getAnswers { name := none, flags := { yes := true, noGit := none, noInstall := none } }
      promptedUnused).name = "my-app" ∧
    (getAnswers { name := none, flags := { yes := true, noGit := none, noInstall := none } }
      promptedUnused).gitRepo = true ∧
    (getAnswers { name := none, flags := { yes := true, noGit := none, noInstall := none } }
      promptedUnused).install = true ∧
    (getAnswers { name := none, flags := { yes := true, noGit := none, noInstall := none } }
      promptedUnused).prisma = true ∧
    (getAnswers { name := none, flags := { yes := true, noGit := none, noInstall := none } }
      promptedUnused).databaseType = some .mongoDB ∧
    (getAnswers { name := none, flags := { yes := true, noGit := none, noInstall := none } }
      promptedUnused).databaseUri = some "mongodb://localhost:27017/my-app" ∧
    (getAnswers { name := none, flags := { yes := true, noGit := none, noInstall := none } }
      promptedUnused).typescript = true ∧
    (getAnswers { name := none, flags := { yes := true, noGit := none, noInstall := none } }
      promptedUnused).helpCommand = true ∧
    (getAnswers { name := none, flags := { yes := true, noGit := none, noInstall := none } }
      promptedUnused).dashboard = true ∧
    (getAnswers { name := none, flags := { yes := true, noGit := none, noInstall := none } }
      promptedUnused).eslintAndPrettier = true :=
  claim_yes_defaults
    { name := none, flags := { yes := true, noGit := none, noInstall := none } }
    promptedUnused rfl

/-- C5: when the database layer is requested and the directory check
passes, scaffolding creates the prisma subdirectory and copies exactly
one schema file — the one whose stem is the lower-cased chosen database
type, or the default type's stem ("mongodb") when none was chosen —
to the fixed destination prisma/schema.prisma; for PostgreSQL the stem
is "postgresql". -/
theorem claim_prisma_schema_copy (read : String → Manifest) (o : ScaffoldOptions)
    (dir : DirState) (hdir : dir ≠ .nonempty) (hp : o.prisma = true) :
    Effect.mkdir (o.projectDirectory ++ "/prisma") ∈ scaffoldProject read o dir ∧
    (scaffoldProject read o dir).filter (fun e => e.isCopyFile) =
      [Effect.copyFile ("prisma/" ++ specSchemaStem o.databaseType ++ ".prisma")
        "prisma/schema.prisma"] ∧
    specSchemaStem (some .postgreSQL) = "postgresql" := by
  obtain ⟨⟨nm, git, inst, pr, dbt, dburi, tsF, hc, dsh, esl⟩, pm, pdir⟩ := o
  replace hp : pr = true := hp
  subst hp
  rw [specSchemaStem_eq]
  cases dir with
  | nonempty => exact absurd rfl hdir
  | absent =>
    cases git <;> cases inst <;> cases tsF <;> cases esl <;>
      exact ⟨by simp [scaffoldProject], rfl, by decide⟩
  | empty =>
    cases git <;> cases inst <;> cases tsF <;> cases esl <;>
      exact ⟨by simp [scaffoldProject], rfl, by decide⟩

/-- Witness for C5 at concrete options requesting PostgreSQL, into an
empty pre-existing directory. -/
theorem claim_prisma_schema_copy_witness :
    Effect.mkdir ("proj" ++ "/prisma") ∈ scaffoldProject sampleRead sampleOptions .empty ∧
    (scaffoldProject sampleRead sampleOptions .empty).filter (fun e => e.isCopyFile) =
      [Effect.copyFile ("prisma/" ++ specSchemaStem (some .postgreSQL) ++ ".prisma")
        "prisma/schema.prisma"] ∧
    specSchemaStem (some .postgreSQL) = "postgresql" :=
  claim_prisma_schema_copy sampleRead sampleOptions .empty (by decide) rfl

/-- C8: with an absent or empty target directory, scaffolding creates
the directory iff it was absent, copies the template directories in the
fixed order (version-control template first when requested, then base,
then the language variant, then the lint template when requested), and
applying the copies in that order makes the last copied template
containing a path determine that path's content (later copies overwrite
earlier ones on collision). -/
theorem claim_scaffold_copy_order (read : String → Manifest) (o : ScaffoldOptions)
    (dir : DirState) (hdir : dir ≠ .nonempty)
    (tf : String → List (String × String)) (fs : String → Option String) (p : String) :
    (Effect.mkdir o.projectDirectory ∈ scaffoldProject read o dir ↔ dir = .absent) ∧
    (scaffoldProject read o dir).filterMap (fun e => e.copiedTemplate) =
      (if o.gitRepo then ["git"] else []) ++
      ["base", if o.typescript then "base-ts" else "base-js"] ++
      (if o.eslintAndPrettier then ["eslint-prettier"] else []) ∧
    (scaffoldProject read o dir).filter (fun e => e.isCopy) =
      (if o.gitRepo then [Effect.copyTemplate "git"] else []) ++
      [Effect.copyTemplate "base",
       Effect.copyTemplate (if o.typescript then "base-ts" else "base-js")] ++
      (if o.prisma then
        [Effect.copyFile
          ("prisma/" ++ ((o.databaseType.map (fun t => strToLower t.toStr)).getD "mongodb")
            ++ ".prisma")
          "prisma/schema.prisma"]
       else []) ++
      (if o.eslintAndPrettier then [Effect.copyTemplate "eslint-prettier"] else []) ∧
    runCopies tf ((scaffoldProject read o dir).filterMap (fun e => e.copiedTemplate)) fs p =
      oor (lastSome? (fun t => getKey (tf t) p)
        ((scaffoldProject read o dir).filterMap (fun e => e.copiedTemplate))) (fs p) := by
  obtain ⟨⟨nm, git, inst, pr, dbt, dburi, tsF, hc, dsh, esl⟩, pm, pdir⟩ := o
  rw [scaffold_trace_eq read _ dir hdir]
  refine ⟨?_, ?_, ?_, runCopies_lastSome tf _ fs p⟩
  · cases dir with
    | nonempty => exact absurd rfl hdir
    | absent => simp
    | empty =>
      have hne := self_ne_append_prisma pdir
      cases git <;> cases tsF <;> cases pr <;> cases esl <;> cases inst <;>
        simp [hne]
  · cases dir with
    | nonempty => exact absurd rfl hdir
    | absent => cases git <;> cases pr <;> cases esl <;> cases inst <;> rfl
    | empty => cases git <;> cases pr <;> cases esl <;> cases inst <;> rfl
  · cases dir with
    | nonempty => exact absurd rfl hdir
    | absent => cases git <;> cases pr <;> cases esl <;> cases inst <;> rfl
    | empty => cases git <;> cases pr <;> cases esl <;> cases inst <;> rfl

/-- Witness for C8 at concrete options with everything requested, an
absent target directory, an empty template file oracle and an empty
file system. -/
theorem claim_scaffold_copy_order_witness :
    (Effect.mkdir "proj" ∈ scaffoldProject sampleRead sampleOptions .absent ↔
      DirState.absent = .absent) ∧
    (scaffoldProject sampleRead sampleOptions .absent).filterMap
        (fun e => e.copiedTemplate) =
      ["git"] ++ ["base", "base-ts"] ++ ["eslint-prettier"] ∧
    (scaffoldProject sampleRead sampleOptions .absent).filter (fun e => e.isCopy) =
      [Effect.copyTemplate "git"] ++
      [Effect.copyTemplate "base", Effect.copyTemplate "base-ts"] ++
      [Effect.copyFile ("prisma/" ++ strToLower DatabaseType.postgreSQL.toStr ++ ".prisma")
        "prisma/schema.prisma"] ++
      [Effect.copyTemplate "eslint-prettier"] ∧
    runCopies (fun _ => []) ((scaffoldProject sampleRead sampleOptions .absent).filterMap
        (fun e => e.copiedTemplate)) (fun _ => none) "README.md" =
      oor (lastSome? (fun t => getKey ((fun _ => ([] : List (String × String))) t) "README.md")
        ((scaffoldProject sampleRead sampleOptions .absent).filterMap
          (fun e => e.copiedTemplate))) ((fun _ => (none : Option String)) "README.md") :=
  claim_scaffold_copy_order sampleRead sampleOptions .absent (by decide)
    (fun _ => []) (fun _ => none) "README.md"

/-- C10: on the success path the manifest write is the unique writeJSON
effect, occurs after every template copy effect, its content is exactly
the merge output over the Template Set, and the version-control
template `git` is not a member of the Template Set passed to the
merge. -/
theorem claim_manifest_written_after_copies (read : String → Manifest)
    (o : ScaffoldOptions) (dir : DirState) (hdir : dir ≠ .nonempty) :
    ∃ m, createPackageJson read o.name (templateSet o) = some m ∧
      (scaffoldProject read o dir).filter (fun e => e.isWriteJSON) =
        [Effect.writeJSON (o.projectDirectory ++ "/package.json") m] ∧
      ((scaffoldProject read o dir).dropWhile (fun e => !e.isWriteJSON)).tail.all
        (fun e => !e.isCopy) = true ∧
      "git" ∉ templateSet o := by
  refine ⟨mergedOf read o, createPackageJson_templateSet read o, ?_, ?_, ?_⟩
  · rw [scaffold_trace_eq read o dir hdir]
    obtain ⟨⟨nm, git, inst, pr, dbt, dburi, tsF, hc, dsh, esl⟩, pm, pdir⟩ := o
    cases dir with
    | nonempty => exact absurd rfl hdir
    | absent => cases git <;> cases pr <;> cases esl <;> cases inst <;> rfl
    | empty => cases git <;> cases pr <;> cases esl <;> cases inst <;> rfl
  · rw [scaffold_trace_eq read o dir hdir]
    obtain ⟨⟨nm, git, inst, pr, dbt, dburi, tsF, hc, dsh, esl⟩, pm, pdir⟩ := o
    cases dir with
    | nonempty => exact absurd rfl hdir
    | absent => cases git <;> cases pr <;> cases esl <;> cases inst <;> rfl
    | empty => cases git <;> cases pr <;> cases esl <;> cases inst <;> rfl
  · obtain ⟨⟨nm, git, inst, pr, dbt, dburi, tsF, hc, dsh, esl⟩, pm, pdir⟩ := o
    cases tsF <;> cases pr <;> cases esl <;> simp [templateSet, setAdd]

/-- Witness for C10 at concrete options with everything requested and
an absent target directory. -/
theorem claim_manifest_written_after_copies_witness :
    ∃ m, createPackageJson sampleRead sampleOptions.name (templateSet sampleOptions) =
        some m ∧
      (scaffoldProject sampleRead sampleOptions .absent).filter
          (fun e => e.isWriteJSON) =
        [Effect.writeJSON ("proj" ++ "/package.json") m] ∧
      ((scaffoldProject sampleRead sampleOptions .absent).dropWhile
          (fun e => !e.isWriteJSON)).tail.all (fun e => !e.isCopy) = true ∧
      "git" ∉ templateSet sampleOptions :=
  claim_manifest_written_after_copies sampleRead sampleOptions .absent (by decide)

end Ferod
